import Mathlib

/-!
Verification of the CI/CD pipeline orchestrator specified for the
my-jenkins-app repository, together with the behaviour of the Express
endpoint in `src/app.js`.

The repository itself contains no engine code: the pipeline structure lives
in the declarative `src/Jenkinsfile`, interpreted by a host runtime.  The
orchestrator (Step Executor, Stage Runner, Pipeline Engine) is therefore
modelled from the specification's component contracts.  The Express app's
route handlers and port selection are embedded directly from `src/app.js`.
-/

/-- Modelled from the spec: outcome of executing a Pipeline/Stage/Step —
one of Succeeded, Failed, Skipped. -/
inductive RunResult
  | Succeeded
  | Failed
  | Skipped
deriving DecidableEq, Repr

/-- Modelled from the spec: a Step is a unit of work — either a shell-like
command string or a built-in action (for example checkout, echo) with
arguments.  Steps are untouched by the engine: it only knows
"run it, get success/failure + output". -/
inductive Step
  | cmd (command : String)
  | builtin (action : String) (args : List String)
deriving DecidableEq, Repr

/-- The external world a step runs against: every step has an exit code
(0 for success).  Purely functional, since the claims assume steps with no
external side effects. -/
def StepEnv : Type := Step → Nat

/-- Modelled from the spec: the Step Executor's result carries the outcome
together with the exit code / error status of the underlying process or
built-in action. -/
structure StepOutcome where
  result : RunResult
  exitCode : Nat
deriving DecidableEq, Repr

namespace StepExecutor

/-- Modelled from the spec: `execute(step) -> RunResult`.  Succeeded if the
underlying process exits with code 0 (or the built-in action completes
without error, encoded as exit code 0); otherwise Failed, carrying the exit
code.  Failure is a normal result value: the function is total and never
raises. -/
def execute (env : StepEnv) (s : Step) : StepOutcome :=
  let code := env s
  { result := if code = 0 then RunResult.Succeeded else RunResult.Failed
    exitCode := code }

end StepExecutor

/-- Modelled from the spec: PostActions map each condition name (`always`,
`success`, `failure`) to at most one ordered sequence of Steps. -/
structure PostActions where
  success : Option (List Step)
  failure : Option (List Step)
  always : Option (List Step)
deriving DecidableEq, Repr

/-- The empty post-action mapping (no condition declared). -/
def PostActions.none : PostActions :=
  { success := Option.none, failure := Option.none, always := Option.none }

/-- Modelled from the spec: a Stage has a name (unique within a pipeline),
an ordered sequence of Steps, and optional PostActions scoped to the
stage. -/
structure Stage where
  name : String
  steps : List Step
  post : PostActions
deriving DecidableEq, Repr

/-- Modelled from the spec: a PipelineDefinition is an ordered sequence of
Stages plus an optional global PostActions mapping. -/
structure PipelineDefinition where
  stages : List Stage
  post : PostActions
deriving DecidableEq, Repr

/-- Run a list of steps unconditionally (used for post-action sequences),
recording each step's result. -/
def runAll (env : StepEnv) (l : List Step) : List (Step × RunResult) :=
  l.map fun s => (s, (StepExecutor.execute env s).result)

/-- Modelled from the spec: run the main steps of a stage in declaration
order, short-circuiting at the first Failed step; the trace records each
step that actually executed together with its result. -/
def runSteps (env : StepEnv) : List Step → List (Step × RunResult)
  | [] => []
  | s :: rest =>
    if (StepExecutor.execute env s).result = RunResult.Failed then
      [(s, RunResult.Failed)]
    else
      (s, (StepExecutor.execute env s).result) :: runSteps env rest

/-- Modelled from the spec: a stage's result is Failed if any main step
failed, else Succeeded. -/
def stepsResult (tr : List (Step × RunResult)) : RunResult :=
  if tr.any (fun p => p.2 = RunResult.Failed) then RunResult.Failed
  else RunResult.Succeeded

/-- Modelled from the spec: evaluate a PostActions mapping against an
outcome: the condition-specific sequence (`success` when the outcome is
Succeeded, `failure` when Failed) runs first, then the `always` sequence
runs unconditionally.  The trace pairs each condition name that fired with
the executed steps. -/
def runPost (env : StepEnv) (p : PostActions) (outcome : RunResult) :
    List (String × List (Step × RunResult)) :=
  (match outcome, p.success, p.failure with
    | RunResult.Succeeded, some ss, _ => [("success", runAll env ss)]
    | RunResult.Failed, _, some fs => [("failure", runAll env fs)]
    | _, _, _ => []) ++
  (match p.always with
    | some al => [("always", runAll env al)]
    | Option.none => [])

/-- Modelled from the spec: the record of one stage inside a PipelineRun —
its result, the trace of main steps that executed, and the trace of
post-action sequences that ran. -/
structure StageOutcome where
  name : String
  result : RunResult
  mainTrace : List (Step × RunResult)
  postTrace : List (String × List (Step × RunResult))
deriving DecidableEq, Repr

namespace StageRunner

/-- Modelled from the spec: `run(stage) -> RunResult`.  Executes the
stage's steps in order via the Step Executor, stopping at the first Failed
step; then evaluates the stage's PostActions (the `always` sequence runs
even when main steps failed).  The stage result is computed from the main
steps alone, so post-action failures never flip it. -/
def run (env : StepEnv) (st : Stage) : StageOutcome :=
  let tr := runSteps env st.steps
  let res := stepsResult tr
  { name := st.name
    result := res
    mainTrace := tr
    postTrace := runPost env st.post res }

/-- Modelled from the spec: a stage skipped because an earlier stage
failed: its main steps never execute and its RunResult is Skipped; its
post actions still run (only `always` can fire on a Skipped outcome). -/
def skip (env : StepEnv) (st : Stage) : StageOutcome :=
  { name := st.name
    result := RunResult.Skipped
    mainTrace := []
    postTrace := runPost env st.post RunResult.Skipped }

end StageRunner

/-- Modelled from the spec: iterate the stages in declaration order through
the Stage Runner, short-circuiting on the first Failed stage: every later
stage is skipped. -/
def runStagesFrom (env : StepEnv) : List Stage → List StageOutcome
  | [] => []
  | st :: rest =>
    if (StageRunner.run env st).result = RunResult.Failed then
      StageRunner.run env st :: rest.map (StageRunner.skip env)
    else
      StageRunner.run env st :: runStagesFrom env rest

/-- Modelled from the spec: the overall outcome of iterating the stages —
Failed as soon as one stage fails, Succeeded when all stages (possibly
none) succeed. -/
def pipelineOverall (env : StepEnv) : List Stage → RunResult
  | [] => RunResult.Succeeded
  | st :: rest =>
    if (StageRunner.run env st).result = RunResult.Failed then RunResult.Failed
    else pipelineOverall env rest

/-- Modelled from the spec: a PipelineRun holds the ordered per-stage
outcomes, the frozen overall result, and the trace of global post-action
sequences. -/
structure PipelineRun where
  stageOutcomes : List StageOutcome
  overall : RunResult
  globalPostTrace : List (String × List (Step × RunResult))
deriving DecidableEq, Repr

/-- Modelled from the spec: DefinitionError — malformed PipelineDefinition:
duplicate stage names, or an empty command on a step. -/
inductive DefinitionError
  | duplicateStageNames
  | emptyCommand
deriving DecidableEq, Repr

/-- A step whose command string is empty (built-in actions always carry a
non-command action name). -/
def Step.isEmptyCmd : Step → Bool
  | Step.cmd c => c = ""
  | Step.builtin _ _ => false

/-- All steps declared by a PostActions mapping. -/
def PostActions.allSteps (p : PostActions) : List Step :=
  p.success.getD [] ++ p.failure.getD [] ++ p.always.getD []

/-- All steps declared anywhere in a PipelineDefinition: each stage's main
steps and stage-scoped post actions, plus the global post actions. -/
def PipelineDefinition.allSteps (d : PipelineDefinition) : List Step :=
  (d.stages.flatMap fun st => st.steps ++ st.post.allSteps) ++ d.post.allSteps

/-- Modelled from the spec: validation of a PipelineDefinition, performed
before any stage runs.  Rejects duplicate stage names and empty commands. -/
def validate (d : PipelineDefinition) : Option DefinitionError :=
  if (d.stages.map Stage.name).Nodup then
    if d.allSteps.any Step.isEmptyCmd then some DefinitionError.emptyCommand
    else Option.none
  else some DefinitionError.duplicateStageNames

namespace PipelineEngine

/-- Modelled from the spec: `run(pipelineDefinition) -> PipelineRun`.
Validation first (fail fast, no PipelineRun on a DefinitionError); then the
stages run in order with short-circuiting; then the global PostActions are
evaluated against the overall result and the run is frozen. -/
def run (env : StepEnv) (d : PipelineDefinition) :
    Except DefinitionError PipelineRun :=
  match validate d with
  | some e => Except.error e
  | Option.none =>
    let outs := runStagesFrom env d.stages
    let overall := pipelineOverall env d.stages
    Except.ok
      { stageOutcomes := outs
        overall := overall
        globalPostTrace := runPost env d.post overall }

/-- Modelled from the spec: the engine's only persistent state — a run
counter and the archive of completed runs.  No run-scoped mutable state
survives between invocations. -/
structure EngineState where
  runCounter : Nat
  archive : List PipelineRun
deriving DecidableEq, Repr

/-- Modelled from the spec: the engine entry point as seen by the Trigger
Gateway: on a DefinitionError the state is unchanged (atomicity); on
success the completed run is archived. -/
def runStateful (env : StepEnv) (s : EngineState) (d : PipelineDefinition) :
    Except DefinitionError PipelineRun × EngineState :=
  match run env d with
  | Except.error e => (Except.error e, s)
  | Except.ok r =>
    (Except.ok r, { runCounter := s.runCounter + 1, archive := s.archive ++ [r] })

end PipelineEngine

/-! ## The Express application, embedded from `src/app.js` -/

/-- The JSON bodies `src/app.js` can send: `res.json({...})` objects with a
`message`/`timestamp` pair (root route) or a `status` field (health
route). -/
structure JsonBody where
  message : Option String
  timestamp : Option String
  status : Option String
deriving DecidableEq, Repr

/-- An HTTP response: Express's `res.json` replies with status code 200
unless the handler sets one explicitly (none of these handlers does). -/
structure HttpResponse where
  statusCode : Nat
  body : JsonBody
deriving DecidableEq, Repr

namespace AppJs

/-- From `src/app.js` lines 5-7: the handler for `GET /`.  `new
Date().toISOString()` is the handler's clock input, passed in as `now`. -/
def rootHandler (now : String) : HttpResponse :=
  { statusCode := 200
    body := { message := some "*** Hello Jenkins CI/CD! ***"
              timestamp := some now
              status := Option.none } }

/-- From `src/app.js` lines 9-11: the handler for `GET /health`. -/
def healthHandler : HttpResponse :=
  { statusCode := 200
    body := { message := Option.none
              timestamp := Option.none
              status := some "healthy" } }

/-- From `src/app.js`: route dispatch for GET requests — the two registered
routes, no response otherwise. -/
def handleGet (path : String) (now : String) : Option HttpResponse :=
  if path = "/" then some (rootHandler now)
  else if path = "/health" then some healthHandler
  else Option.none

/-- The message the tutorial's test (`app.test.js` in `src/README.md`)
expects from `GET /`. -/
def tutorialExpectedMessage : String := "Hello Jenkins CI/CD!"

/-- From `src/app.js` line 3: `const port = process.env.PORT || 3001`.
Environment values are strings; JavaScript `||` keeps the left operand
when it is truthy, and a string is truthy exactly when it is non-empty
(an unset variable is `undefined`, which is falsy).  The numeric default
3001 is rendered as its decimal string. -/
def port (envPORT : Option String) : String :=
  match envPORT with
  | some s => if s = "" then "3001" else s
  | Option.none => "3001"

/-- The port the deployment-verification instructions in `src/README.md`
curl against (`curl http://localhost:3000`). -/
def readmeAssumedPort : String := "3000"

end AppJs

/-! ## The pipeline declared in `src/Jenkinsfile`, as data -/

/-- A built-in echo step. -/
def echoStep (msg : String) : Step := Step.builtin "echo" [msg]

/-- A shell command step. -/
def shStep (c : String) : Step := Step.cmd c

/-- From `src/Jenkinsfile`: the Checkout stage. -/
def checkoutStage : Stage :=
  { name := "Checkout"
    steps := [echoStep "Checking out code from repository...",
              Step.builtin "checkout" ["scm"]]
    post := PostActions.none }

/-- From `src/Jenkinsfile`: the Install Dependencies stage. -/
def installStage : Stage :=
  { name := "Install Dependencies"
    steps := [echoStep "Installing npm dependencies...", shStep "npm install"]
    post := PostActions.none }

/-- From `src/Jenkinsfile`: the Run Tests stage, with its `always` post
action. -/
def testStage : Stage :=
  { name := "Run Tests"
    steps := [echoStep "Running tests...", shStep "npm test"]
    post := { success := Option.none
              failure := Option.none
              always := some [echoStep "Test stage completed"] } }

/-- From `src/Jenkinsfile`: the Build stage. -/
def buildStage : Stage :=
  { name := "Build"
    steps := [echoStep "Building application...", shStep "npm run build"]
    post := PostActions.none }

/-- From `src/Jenkinsfile`: the Deploy stage (the multi-line deployment
shell script is a single opaque command to the engine). -/
def deployStage : Stage :=
  { name := "Deploy"
    steps := [echoStep "Deploying application...", shStep "deploy-script"]
    post := PostActions.none }

/-- From `src/Jenkinsfile`: the global `success` post sequence. -/
def globalSuccessSteps : List Step := [echoStep "Pipeline completed successfully!"]

/-- From `src/Jenkinsfile`: the global `failure` post sequence. -/
def globalFailureSteps : List Step := [echoStep "Pipeline failed!"]

/-- From `src/Jenkinsfile`: the global `always` post sequence. -/
def globalAlwaysSteps : List Step :=
  [echoStep "Cleaning up workspace...", Step.builtin "cleanWs" []]

/-- From `src/Jenkinsfile`: the whole declarative pipeline. -/
def jenkinsfilePipeline : PipelineDefinition :=
  { stages := [checkoutStage, installStage, testStage, buildStage, deployStage]
    post := { success := some globalSuccessSteps
              failure := some globalFailureSteps
              always := some globalAlwaysSteps } }

/-- A world in which every step exits with code 0. -/
def envAllOk : StepEnv := fun _ => 0

/-- A world in which `npm test` exits with code 1 and everything else
succeeds — the spec's test-failure scenario. -/
def envTestFails : StepEnv := fun s =>
  match s with
  | Step.cmd c => if c = "npm test" then 1 else 0
  | Step.builtin _ _ => 0

/-- The PipelineRun produced by running the Jenkinsfile pipeline in the
all-success world. -/
def okRun : PipelineRun :=
  { stageOutcomes := runStagesFrom envAllOk jenkinsfilePipeline.stages
    overall := pipelineOverall envAllOk jenkinsfilePipeline.stages
    globalPostTrace :=
      runPost envAllOk jenkinsfilePipeline.post
        (pipelineOverall envAllOk jenkinsfilePipeline.stages) }

/-- The PipelineRun produced by running the Jenkinsfile pipeline in the
test-failure world. -/
def failedRun : PipelineRun :=
  { stageOutcomes := runStagesFrom envTestFails jenkinsfilePipeline.stages
    overall := pipelineOverall envTestFails jenkinsfilePipeline.stages
    globalPostTrace :=
      runPost envTestFails jenkinsfilePipeline.post
        (pipelineOverall envTestFails jenkinsfilePipeline.stages) }

/-- A pipeline with two stages sharing the name Build: malformed. -/
def duplicateNamesPipeline : PipelineDefinition :=
  { stages := [ { name := "Build", steps := [], post := PostActions.none },
                { name := "Build", steps := [], post := PostActions.none } ]
    post := PostActions.none }

/-- A fresh engine state. -/
def sampleState0 : PipelineEngine.EngineState := { runCounter := 0, archive := [] }

/-! ## Auxiliary lemmas -/

/-- Every outcome produced by skipping a stage is Skipped with no main
steps executed. -/
theorem mem_map_skip {env : StepEnv} {l : List Stage} {o : StageOutcome}
    (h : o ∈ l.map (StageRunner.skip env)) :
    o.result = RunResult.Skipped ∧ o.mainTrace = [] := by
  rcases List.mem_map.mp h with ⟨st, _, rfl⟩
  exact ⟨rfl, rfl⟩

/-- The executed main steps are an initial segment of the declared steps,
in declaration order. -/
theorem runSteps_map_fst (env : StepEnv) (l : List Step) :
    (runSteps env l).map Prod.fst = l.take (runSteps env l).length := by
  induction l with
  | nil => rfl
  | cons s rest ih =>
    by_cases hf : (StepExecutor.execute env s).result = RunResult.Failed
    · simp [runSteps, hf]
    · simp [runSteps, hf, ih]

/-- In a main-step trace, a Failed step is always the last entry executed:
nothing follows it. -/
theorem runSteps_failed_last {env : StepEnv} {l : List Step}
    {pre : List (Step × RunResult)} {p : Step × RunResult}
    {suf : List (Step × RunResult)}
    (h : runSteps env l = pre ++ p :: suf) (hp : p.2 = RunResult.Failed) :
    suf = [] := by
  induction l generalizing pre with
  | nil => simp [runSteps] at h
  | cons s rest ih =>
    by_cases hf : (StepExecutor.execute env s).result = RunResult.Failed
    · rw [runSteps, if_pos hf] at h
      rcases pre with _ | ⟨x, pre⟩
      · rw [List.nil_append] at h
        injection h with h1 h2
        exact h2.symm
      · rw [List.cons_append] at h
        injection h with h1 h2
        exact absurd h2.symm (by simp)
    · rw [runSteps, if_neg hf] at h
      rcases pre with _ | ⟨x, pre⟩
      · rw [List.nil_append] at h
        injection h with h1 h2
        rw [← h1] at hp
        exact absurd hp hf
      · rw [List.cons_append] at h
        injection h with h1 h2
        exact ih h2

/-- A step list's derived result is Failed exactly when some entry in the
trace is Failed. -/
theorem stepsResult_failed_iff (tr : List (Step × RunResult)) :
    stepsResult tr = RunResult.Failed ↔
      ∃ p ∈ tr, p.2 = RunResult.Failed := by
  unfold stepsResult
  by_cases h : tr.any (fun p => p.2 = RunResult.Failed)
  · simp only [if_pos h, true_iff]
    simpa using h
  · simp only [if_neg h]
    constructor
    · intro hc; exact absurd hc (by simp)
    · intro hc; exact absurd (by simpa using hc) h

/-- A step list's derived result is never Skipped: it is Succeeded when it
is not Failed. -/
theorem stepsResult_ne_failed (tr : List (Step × RunResult))
    (h : stepsResult tr ≠ RunResult.Failed) :
    stepsResult tr = RunResult.Succeeded := by
  unfold stepsResult at h ⊢
  by_cases hc : tr.any (fun p => p.2 = RunResult.Failed)
  · exact absurd (if_pos hc) h
  · exact if_neg hc

/-- Inversion of a successful engine run: the run's fields are the stage
iteration, the overall computation and the global post trace. -/
theorem run_ok_inv {env : StepEnv} {d : PipelineDefinition} {r : PipelineRun}
    (h : PipelineEngine.run env d = Except.ok r) :
    r.stageOutcomes = runStagesFrom env d.stages ∧
    r.overall = pipelineOverall env d.stages ∧
    r.globalPostTrace = runPost env d.post (pipelineOverall env d.stages) := by
  unfold PipelineEngine.run at h
  rcases hv : validate d with _ | e
  · rw [hv] at h
    simp at h
    exact ⟨h ▸ rfl, h ▸ rfl, h ▸ rfl⟩
  · rw [hv] at h
    simp at h

/-- The overall pipeline result is never Skipped. -/
theorem pipelineOverall_ne_failed (env : StepEnv) (stages : List Stage)
    (h : pipelineOverall env stages ≠ RunResult.Failed) :
    pipelineOverall env stages = RunResult.Succeeded := by
  induction stages with
  | nil => rfl
  | cons st rest ih =>
    by_cases hf : (StageRunner.run env st).result = RunResult.Failed
    · exact absurd (by rw [pipelineOverall, if_pos hf]) h
    · rw [pipelineOverall, if_neg hf] at h ⊢
      exact ih h

/-- The stage iteration fails overall exactly when some produced outcome is
Failed. -/
theorem pipelineOverall_failed_iff (env : StepEnv) (stages : List Stage) :
    pipelineOverall env stages = RunResult.Failed ↔
      ∃ o ∈ runStagesFrom env stages, o.result = RunResult.Failed := by
  induction stages with
  | nil => simp [pipelineOverall, runStagesFrom]
  | cons st rest ih =>
    by_cases hf : (StageRunner.run env st).result = RunResult.Failed
    · rw [pipelineOverall, if_pos hf, runStagesFrom, if_pos hf]
      constructor
      · intro _
        exact ⟨StageRunner.run env st, List.mem_cons_self _ _, hf⟩
      · intro _
        rfl
    · rw [pipelineOverall, if_neg hf, runStagesFrom, if_neg hf, ih]
      constructor
      · rintro ⟨o, ho, hres⟩
        exact ⟨o, List.mem_cons_of_mem _ ho, hres⟩
      · rintro ⟨o, ho, hres⟩
        rcases List.mem_cons.mp ho with rfl | hmem
        · exact absurd hres hf
        · exact ⟨o, hmem, hres⟩

/-- A `success` entry appears in a post trace exactly when the outcome is
Succeeded (given that a success sequence is declared). -/
theorem runPost_success_iff (env : StepEnv) (p : PostActions)
    (outcome : RunResult) (ss : List Step) (hs : p.success = some ss) :
    (∃ tr, ("success", tr) ∈ runPost env p outcome) ↔
      outcome = RunResult.Succeeded := by
  obtain ⟨ps, pf, pa⟩ := p
  dsimp only at hs
  subst hs
  rcases outcome <;> rcases pf with _ | fs <;> rcases pa with _ | al <;>
    simp [runPost]

/-- A `failure` entry appears in a post trace exactly when the outcome is
Failed (given that a failure sequence is declared). -/
theorem runPost_failure_iff (env : StepEnv) (p : PostActions)
    (outcome : RunResult) (fs : List Step) (hf : p.failure = some fs) :
    (∃ tr, ("failure", tr) ∈ runPost env p outcome) ↔
      outcome = RunResult.Failed := by
  obtain ⟨ps, pf, pa⟩ := p
  dsimp only at hf
  subst hf
  rcases outcome <;> rcases ps with _ | ss <;> rcases pa with _ | al <;>
    simp [runPost]

/-- A declared `always` sequence appears in the post trace for every
outcome. -/
theorem runPost_always_mem (env : StepEnv) (p : PostActions)
    (outcome : RunResult) (al : List Step) (ha : p.always = some al) :
    ("always", runAll env al) ∈ runPost env p outcome := by
  obtain ⟨ps, pf, pa⟩ := p
  dsimp only at ha
  subst ha
  rcases outcome <;> rcases ps with _ | ss <;> rcases pf with _ | fs <;>
    simp [runPost]

/-- On a Succeeded outcome with declared `success` and `always` sequences,
the post trace is exactly the success entry followed by the always entry. -/
theorem runPost_succeeded_shape (env : StepEnv) (p : PostActions)
    (ss al : List Step) (hs : p.success = some ss) (ha : p.always = some al) :
    runPost env p RunResult.Succeeded =
      [("success", runAll env ss), ("always", runAll env al)] := by
  obtain ⟨ps, pf, pa⟩ := p
  dsimp only at hs ha
  subst hs
  subst ha
  rcases pf with _ | fs <;> simp [runPost]

/-- On a Failed outcome with declared `failure` and `always` sequences, the
post trace is exactly the failure entry followed by the always entry. -/
theorem runPost_failed_shape (env : StepEnv) (p : PostActions)
    (fs al : List Step) (hf : p.failure = some fs) (ha : p.always = some al) :
    runPost env p RunResult.Failed =
      [("failure", runAll env fs), ("always", runAll env al)] := by
  obtain ⟨ps, pf, pa⟩ := p
  dsimp only at hf ha
  subst hf
  subst ha
  rcases ps with _ | ss <;> simp [runPost]

/-- A declared `always` sequence fires exactly once per post-trace
evaluation, whatever the outcome. -/
theorem runPost_always_countP (env : StepEnv) (p : PostActions)
    (outcome : RunResult) (al : List Step) (ha : p.always = some al) :
    (runPost env p outcome).countP (fun e => e.1 == "always") = 1 := by
  obtain ⟨ps, pf, pa⟩ := p
  dsimp only at ha
  subst ha
  rcases outcome <;> rcases ps with _ | ss <;> rcases pf with _ | fs <;>
    simp [runPost, List.countP_append, List.countP_cons]

/-! ## Claim theorems -/

/-- C1: if a stage in a pipeline run has result Failed, every later stage's
main steps never execute and every later stage's RunResult is Skipped. -/
theorem stages_skipped_after_failure (env : StepEnv) (stages : List Stage)
    (l1 : List StageOutcome) (o : StageOutcome) (l2 : List StageOutcome)
    (h : runStagesFrom env stages = l1 ++ o :: l2)
    (ho : o.result = RunResult.Failed) :
    ∀ o' ∈ l2, o'.result = RunResult.Skipped ∧ o'.mainTrace = [] := by
  revert h
  induction stages generalizing l1 with
  | nil =>
    intro h
    simp [runStagesFrom] at h
  | cons st rest ih =>
    intro h
    by_cases hf : (StageRunner.run env st).result = RunResult.Failed
    · rw [runStagesFrom, if_pos hf] at h
      rcases l1 with _ | ⟨x, l1⟩
      · rw [List.nil_append] at h
        injection h with h1 h2
        intro o' ho'
        rw [← h2] at ho'
        exact mem_map_skip ho'
      · rw [List.cons_append] at h
        injection h with h1 h2
        intro o' ho'
        have hm : o' ∈ rest.map (StageRunner.skip env) := by
          rw [h2]
          exact List.mem_append.mpr (Or.inr (List.mem_cons_of_mem _ ho'))
        exact mem_map_skip hm
    · rw [runStagesFrom, if_neg hf] at h
      rcases l1 with _ | ⟨x, l1⟩
      · rw [List.nil_append] at h
        injection h with h1 h2
        rw [← h1] at ho
        exact absurd ho hf
      · rw [List.cons_append] at h
        injection h with h1 h2
        exact ih l1 h2

/-- C1 witness: in the test-failure world the Run Tests stage fails, and
the Build stage after it is Skipped with no main steps executed. -/
theorem stages_skipped_after_failure_witness :
    (StageRunner.skip envTestFails buildStage).result = RunResult.Skipped ∧
    (StageRunner.skip envTestFails buildStage).mainTrace = [] :=
  stages_skipped_after_failure envTestFails jenkinsfilePipeline.stages
    [StageRunner.run envTestFails checkoutStage,
     StageRunner.run envTestFails installStage]
    (StageRunner.run envTestFails testStage)
    [StageRunner.skip envTestFails buildStage,
     StageRunner.skip envTestFails deployStage]
    (by decide) (by decide)
    (StageRunner.skip envTestFails buildStage) (by decide)

/-- C2: a completed pipeline run's overall result is Failed exactly when
some stage outcome is Failed, and is Succeeded otherwise. -/
theorem pipeline_overall_result_spec (env : StepEnv) (d : PipelineDefinition)
    (r : PipelineRun) (h : PipelineEngine.run env d = Except.ok r) :
    (r.overall = RunResult.Failed ↔
      ∃ o ∈ r.stageOutcomes, o.result = RunResult.Failed) ∧
    (r.overall ≠ RunResult.Failed → r.overall = RunResult.Succeeded) := by
  obtain ⟨hso, hov, -⟩ := run_ok_inv h
  rw [hso, hov]
  exact ⟨pipelineOverall_failed_iff env d.stages,
         pipelineOverall_ne_failed env d.stages⟩

/-- C2 witness: a failing `npm test` makes the Jenkinsfile pipeline's
overall result Failed. -/
theorem pipeline_overall_result_spec_witness :
    failedRun.overall = RunResult.Failed :=
  (pipeline_overall_result_spec envTestFails jenkinsfilePipeline failedRun
      (by rfl)).1.mpr
    ⟨StageRunner.run envTestFails testStage, by decide, by decide⟩

/-- C3: for a completed run, the global success sequence fires exactly when
the overall result is Succeeded, the failure sequence exactly when it is
Failed, the always sequence fires on every run, and the condition-specific
entry precedes the always entry in the post trace. -/
theorem global_post_spec (env : StepEnv) (d : PipelineDefinition)
    (r : PipelineRun) (h : PipelineEngine.run env d = Except.ok r) :
    (∀ ss, d.post.success = some ss →
      ((∃ tr, ("success", tr) ∈ r.globalPostTrace) ↔
        r.overall = RunResult.Succeeded)) ∧
    (∀ fs, d.post.failure = some fs →
      ((∃ tr, ("failure", tr) ∈ r.globalPostTrace) ↔
        r.overall = RunResult.Failed)) ∧
    (∀ al, d.post.always = some al →
      ("always", runAll env al) ∈ r.globalPostTrace) ∧
    (∀ ss al, d.post.success = some ss → d.post.always = some al →
      r.overall = RunResult.Succeeded →
      r.globalPostTrace =
        [("success", runAll env ss), ("always", runAll env al)]) ∧
    (∀ fs al, d.post.failure = some fs → d.post.always = some al →
      r.overall = RunResult.Failed →
      r.globalPostTrace =
        [("failure", runAll env fs), ("always", runAll env al)]) := by
  obtain ⟨-, hov, hgp⟩ := run_ok_inv h
  refine ⟨?_, ?_, ?_, ?_, ?_⟩
  · intro ss hs
    rw [hgp, hov]
    exact runPost_success_iff env d.post _ ss hs
  · intro fs hf
    rw [hgp, hov]
    exact runPost_failure_iff env d.post _ fs hf
  · intro al ha
    rw [hgp]
    exact runPost_always_mem env d.post _ al ha
  · intro ss al hs ha hsucc
    rw [hov] at hsucc
    rw [hgp, hsucc]
    exact runPost_succeeded_shape env d.post ss al hs ha
  · intro fs al hf ha hfail
    rw [hov] at hfail
    rw [hgp, hfail]
    exact runPost_failed_shape env d.post fs al hf ha

/-- C3 witness: the all-success Jenkinsfile run fires its global success
sequence and then its global always sequence, in that order. -/
theorem global_post_spec_witness :
    okRun.globalPostTrace =
      [("success", runAll envAllOk globalSuccessSteps),
       ("always", runAll envAllOk globalAlwaysSteps)] :=
  (global_post_spec envAllOk jenkinsfilePipeline okRun (by rfl)).2.2.2.1
    globalSuccessSteps globalAlwaysSteps rfl rfl (by decide)

/-- C4: the Stage Runner executes an initial segment of the declared steps
in declaration order, never executes a main step after the first Failed
one, reports Failed exactly when some main step failed, and reports
Succeeded whenever no main step failed (post-action failures cannot flip
it). -/
theorem stage_runner_spec (env : StepEnv) (st : Stage) :
    (StageRunner.run env st).mainTrace.map Prod.fst =
      st.steps.take (StageRunner.run env st).mainTrace.length ∧
    (∀ pre p suf, (StageRunner.run env st).mainTrace = pre ++ p :: suf →
      p.2 = RunResult.Failed → suf = []) ∧
    ((StageRunner.run env st).result = RunResult.Failed ↔
      ∃ p ∈ (StageRunner.run env st).mainTrace, p.2 = RunResult.Failed) ∧
    ((∀ p ∈ (StageRunner.run env st).mainTrace, p.2 ≠ RunResult.Failed) →
      (StageRunner.run env st).result = RunResult.Succeeded) := by
  have hm : (StageRunner.run env st).mainTrace = runSteps env st.steps := rfl
  have hr : (StageRunner.run env st).result =
      stepsResult (runSteps env st.steps) := rfl
  refine ⟨?_, ?_, ?_, ?_⟩
  · rw [hm]
    exact runSteps_map_fst env st.steps
  · intro pre p suf hpp hp
    rw [hm] at hpp
    exact runSteps_failed_last hpp hp
  · rw [hr, hm]
    exact stepsResult_failed_iff _
  · intro hall
    rw [hr]
    apply stepsResult_ne_failed
    intro hfail
    rcases (stepsResult_failed_iff _).mp hfail with ⟨p, hmem, hp⟩
    rw [hm] at hall
    exact hall p hmem hp

/-- C4 witness: the Run Tests stage fails in the test-failure world because
its `npm test` step failed. -/
theorem stage_runner_spec_witness :
    (StageRunner.run envTestFails testStage).result = RunResult.Failed :=
  (stage_runner_spec envTestFails testStage).2.2.1.mpr
    ⟨(shStep "npm test", RunResult.Failed), by decide, rfl⟩

/-- C5: a stage's declared `always` post sequence fires exactly once per
stage run, whatever the main steps did. -/
theorem stage_always_post_once (env : StepEnv) (st : Stage)
    (al : List Step) (h : st.post.always = some al) :
    ((StageRunner.run env st).postTrace.countP (fun e => e.1 == "always")) = 1 := by
  have hp : (StageRunner.run env st).postTrace =
      runPost env st.post (stepsResult (runSteps env st.steps)) := rfl
  rw [hp]
  exact runPost_always_countP env st.post _ al h

/-- C5 witness: the Run Tests stage's always sequence fires exactly once
even though its `npm test` step failed. -/
theorem stage_always_post_once_witness :
    ((StageRunner.run envTestFails testStage).postTrace.countP
      (fun e => e.1 == "always")) = 1 :=
  stage_always_post_once envTestFails testStage
    [echoStep "Test stage completed"] rfl

/-- C6: the Step Executor reports Succeeded exactly when the step's exit
code is 0 and Failed exactly when it is non-zero, carries the exit code,
and returns failure as an ordinary result value (the function is total). -/
theorem step_executor_result_spec (env : StepEnv) (s : Step) :
    ((StepExecutor.execute env s).result = RunResult.Succeeded ↔ env s = 0) ∧
    ((StepExecutor.execute env s).result = RunResult.Failed ↔ env s ≠ 0) ∧
    (StepExecutor.execute env s).exitCode = env s := by
  unfold StepExecutor.execute
  by_cases h : env s = 0 <;> simp [h]

/-- C7: a malformed definition (duplicate stage names or an empty command)
is rejected with a DefinitionError, the engine state is unchanged, and no
PipelineRun is produced. -/
theorem definition_error_rejected (env : StepEnv)
    (s : PipelineEngine.EngineState) (d : PipelineDefinition)
    (h : ¬ (d.stages.map Stage.name).Nodup ∨ d.allSteps.any Step.isEmptyCmd) :
    ∃ e, PipelineEngine.runStateful env s d = (Except.error e, s) := by
  have hv : ∃ e, validate d = some e := by
    unfold validate
    by_cases hn : (d.stages.map Stage.name).Nodup
    · rcases h with h | h
      · exact absurd hn h
      · exact ⟨DefinitionError.emptyCommand, by rw [if_pos hn, if_pos h]⟩
    · exact ⟨DefinitionError.duplicateStageNames, by rw [if_neg hn]⟩
  rcases hv with ⟨e, he⟩
  refine ⟨e, ?_⟩
  unfold PipelineEngine.runStateful PipelineEngine.run
  rw [he]

/-- C7 witness: the pipeline with two stages named Build is rejected and
leaves a fresh engine state untouched. -/
theorem definition_error_rejected_witness :
    PipelineEngine.runStateful envAllOk sampleState0 duplicateNamesPipeline =
      (Except.error DefinitionError.duplicateStageNames, sampleState0) := by
  obtain ⟨e, he⟩ := definition_error_rejected envAllOk sampleState0
    duplicateNamesPipeline (Or.inl (by decide))
  rcases e with _ | _
  · exact he
  · have hd : PipelineEngine.runStateful envAllOk sampleState0 duplicateNamesPipeline
        = (Except.error DefinitionError.duplicateStageNames, sampleState0) := by rfl
    rw [hd] at he
    injection he

/-- C8: two successive engine invocations on the same definition, in a
world whose steps have no external side effects, produce runs with
identical stage-result sequences. -/
theorem engine_idempotent (env : StepEnv) (s0 : PipelineEngine.EngineState)
    (d : PipelineDefinition) (r1 r2 : PipelineRun)
    (s1 s2 : PipelineEngine.EngineState)
    (h1 : PipelineEngine.runStateful env s0 d = (Except.ok r1, s1))
    (h2 : PipelineEngine.runStateful env s1 d = (Except.ok r2, s2)) :
    r1.stageOutcomes.map StageOutcome.result =
      r2.stageOutcomes.map StageOutcome.result := by
  unfold PipelineEngine.runStateful at h1 h2
  rcases hr : PipelineEngine.run env d with e | r
  · rw [hr] at h1
    injection h1 with ha hb
    injection ha
  · rw [hr] at h1 h2
    injection h1 with ha hb
    injection h2 with hc hd
    injection ha with ha
    injection hc with hc
    rw [← ha, ← hc]

/-- C8 witness: running the Jenkinsfile pipeline twice from a fresh engine
state yields the same all-Succeeded stage-result sequence both times. -/
theorem engine_idempotent_witness :
    okRun.stageOutcomes.map StageOutcome.result =
      [RunResult.Succeeded, RunResult.Succeeded, RunResult.Succeeded,
       RunResult.Succeeded, RunResult.Succeeded] :=
  (engine_idempotent envAllOk sampleState0 jenkinsfilePipeline okRun okRun
      { runCounter := 1, archive := [okRun] }
      { runCounter := 2, archive := [okRun, okRun] }
      (by rfl) (by rfl)).trans (by decide)

/-- C9: `GET /` answers with status 200, a message field that is exactly
the starred string from `src/app.js`, and a timestamp field; the message
differs from the one the tutorial's test expects, so that test fails
against this handler. -/
theorem root_route_spec (now : String) :
    AppJs.handleGet "/" now = some (AppJs.rootHandler now) ∧
    (AppJs.rootHandler now).statusCode = 200 ∧
    (AppJs.rootHandler now).body.message = some "*** Hello Jenkins CI/CD! ***" ∧
    (AppJs.rootHandler now).body.timestamp = some now ∧
    (AppJs.rootHandler now).body.message ≠ some AppJs.tutorialExpectedMessage := by
  refine ⟨rfl, rfl, rfl, rfl, ?_⟩
  intro hc
  simp [AppJs.rootHandler, AppJs.tutorialExpectedMessage] at hc

/-- C10: the server's port is the PORT environment value when that is set
and non-empty, and 3001 otherwise — which is not the 3000 the README's
verification instructions curl against. -/
theorem port_selection_spec :
    (∀ s : String, s ≠ "" → AppJs.port (some s) = s) ∧
    AppJs.port Option.none = "3001" ∧
    AppJs.port (some "") = "3001" ∧
    AppJs.port Option.none ≠ AppJs.readmeAssumedPort := by
  refine ⟨?_, rfl, rfl, by decide⟩
  intro s hs
  simp only [AppJs.port]
  rw [if_neg hs]

/-- C10 witness: with PORT set to 8080, the server listens on 8080. -/
theorem port_selection_spec_witness : AppJs.port (some "8080") = "8080" :=
  port_selection_spec.1 "8080" (by decide)
